import Mathlib

set_option maxHeartbeats 1000000

/-
  Verification development for the ar-go-common credential / session /
  lockout / action-token core.

  Bytes are modelled as `Nat` values `< 256`, strings as `List Char`.
  Third-party primitives (argon2.IDKey, the JWT HMAC signer, uuid.Parse,
  crypto/rand) are not code of this repository; they are abstracted as
  function parameters together with their documented contracts (e.g.
  argon2.IDKey returns exactly `keyLength` bytes).  Everything written by
  the repository itself (the credential codec, the verifier, the lockout
  arithmetic, the login orchestration, the action-token flows, the token
  generators) is translated directly from the Go source.
-/

namespace ArGoCommon

/-! ### Decimal printing and scanning

Models `fmt.Sprintf("%d", n)` for unsigned values and the `%d` verb of
`fmt.Sscanf` (a maximal run of decimal digits; trailing input is left
unconsumed). -/

/-- The character for decimal digit `d` (models the digit characters produced
by `fmt.Sprintf` `%d`). -/
def digitChar (d : Nat) : Char := Char.ofNat (48 + d)

/-- Little-endian decimal digits of `n`, with explicit fuel (correct whenever
`n ≤ fuel`). -/
def revDigits : Nat → Nat → List Nat
  | 0, _ => []
  | fuel + 1, n => if n = 0 then [] else n % 10 :: revDigits fuel (n / 10)

/-- Value of a little-endian decimal digit list. -/
def ofDigits10 : List Nat → Nat
  | [] => 0
  | d :: ds => d + 10 * ofDigits10 ds

/-- Decimal rendering of `n`, as produced by `fmt.Sprintf("%d", n)` for an
unsigned `n`. -/
def toDecimal (n : Nat) : List Char :=
  if n = 0 then ['0'] else ((revDigits n n).reverse).map digitChar

theorem revDigits_spec : ∀ fuel n, n ≤ fuel → ofDigits10 (revDigits fuel n) = n := by
  intro fuel
  induction fuel with
  | zero =>
    intro n h
    have : n = 0 := Nat.le_zero.mp h
    simp [this, revDigits, ofDigits10]
  | succ f ih =>
    intro n h
    by_cases h0 : n = 0
    · simp [h0, revDigits, ofDigits10]
    · have hdiv : n / 10 ≤ f := by omega
      simp only [revDigits, h0, if_false, ofDigits10]
      rw [ih (n / 10) hdiv]
      omega

theorem revDigits_lt : ∀ fuel n, ∀ d ∈ revDigits fuel n, d < 10 := by
  intro fuel
  induction fuel with
  | zero => intro n d hd; simp [revDigits] at hd
  | succ f ih =>
    intro n d hd
    by_cases h0 : n = 0
    · simp [revDigits, h0] at hd
    · simp only [revDigits, h0, if_false, List.mem_cons] at hd
      rcases hd with h | h
      · omega
      · exact ih _ _ h

theorem revDigits_ne_nil : ∀ fuel n, n ≠ 0 → n ≤ fuel → revDigits fuel n ≠ [] := by
  intro fuel n h0 hle
  cases fuel with
  | zero => omega
  | succ f => simp [revDigits, h0]

/-- One scanned item of `fmt.Sscanf`'s `%d`: fold digits into an accumulator,
stop at the first non-digit. -/
def parseNatAux : List Char → Nat → Nat × List Char
  | [], acc => (acc, [])
  | c :: cs, acc =>
    if c.isDigit then parseNatAux cs (acc * 10 + (c.toNat - 48)) else (acc, c :: cs)

/-- `fmt.Sscanf`'s `%d` verb for an unsigned target: requires at least one
digit, returns the value and the unconsumed input. -/
def parseNat : List Char → Option (Nat × List Char)
  | [] => none
  | c :: cs => if c.isDigit then some (parseNatAux (c :: cs) 0) else none

/-- True when the list does not start with a decimal digit. -/
def headNotDigit : List Char → Bool
  | [] => true
  | c :: _ => !c.isDigit

theorem digitChar_isDigit : ∀ d, d < 10 → (digitChar d).isDigit = true := by decide

theorem digitChar_toNat : ∀ d, d < 10 → (digitChar d).toNat - 48 = d := by decide

theorem digitChar_ne_dollar : ∀ d, d < 10 → digitChar d ≠ '$' := by decide

theorem digitChar_ne_comma : ∀ d, d < 10 → digitChar d ≠ ',' := by decide

theorem parseNatAux_stop (rest : List Char) (acc : Nat) (h : headNotDigit rest = true) :
    parseNatAux rest acc = (acc, rest) := by
  cases rest with
  | nil => rfl
  | cons c cs =>
    simp only [headNotDigit, Bool.not_eq_true'] at h
    simp [parseNatAux, h]

theorem parseNatAux_digits :
    ∀ (D : List Nat) (acc : Nat) (rest : List Char), (∀ d ∈ D, d < 10) →
      headNotDigit rest = true →
      parseNatAux (D.map digitChar ++ rest) acc =
        (D.foldl (fun a d => a * 10 + d) acc, rest) := by
  intro D
  induction D with
  | nil =>
    intro acc rest _ hrest
    simpa using parseNatAux_stop rest acc hrest
  | cons d ds ih =>
    intro acc rest hD hrest
    have hd : d < 10 := hD d (by simp)
    have hds : ∀ x ∈ ds, x < 10 := fun x hx => hD x (by simp [hx])
    simp only [List.map_cons, List.cons_append, parseNatAux,
      digitChar_isDigit d hd, if_true, digitChar_toNat d hd, List.foldl_cons]
    exact ih _ rest hds hrest

theorem foldl_reverse_eq :
    ∀ (ds : List Nat) (acc : Nat),
      (ds.reverse).foldl (fun a d => a * 10 + d) acc =
        acc * 10 ^ ds.length + ofDigits10 ds := by
  intro ds
  induction ds with
  | nil => intro acc; simp [ofDigits10]
  | cons d t ih =>
    intro acc
    simp only [List.reverse_cons, List.foldl_append, List.foldl_cons, List.foldl_nil,
      ih acc, ofDigits10, List.length_cons, pow_succ]
    ring

theorem parseNat_toDecimal (n : Nat) (rest : List Char) (h : headNotDigit rest = true) :
    parseNat (toDecimal n ++ rest) = some (n, rest) := by
  by_cases h0 : n = 0
  · subst h0
    show parseNat (['0'] ++ rest) = some (0, rest)
    have h0' : ([0] : List Nat).map digitChar = ['0'] := by decide
    rw [← h0']
    simp only [List.map_cons, List.map_nil, List.cons_append, List.nil_append, parseNat]
    rw [show (digitChar 0).isDigit = true from by decide, if_pos rfl]
    rw [show (digitChar 0 :: rest : List Char) = ([0] : List Nat).map digitChar ++ rest from by simp]
    rw [parseNatAux_digits [0] 0 rest (by simp) h]
    simp
  · have hne : revDigits n n ≠ [] := revDigits_ne_nil n n h0 le_rfl
    have hlt : ∀ d ∈ (revDigits n n).reverse, d < 10 := by
      intro d hd
      exact revDigits_lt n n d (List.mem_reverse.mp hd)
    obtain ⟨d0, D', hD⟩ : ∃ d0 D', (revDigits n n).reverse = d0 :: D' := by
      cases hrev : (revDigits n n).reverse with
      | nil => exact absurd (by simpa using congrArg List.reverse hrev) hne
      | cons a b => exact ⟨a, b, rfl⟩
    have hval : ofDigits10 (revDigits n n) = n := revDigits_spec n n le_rfl
    have hfold : ((revDigits n n).reverse).foldl (fun a d => a * 10 + d) 0 = n := by
      rw [foldl_reverse_eq]
      simpa using hval
    simp only [toDecimal, h0, if_false]
    rw [hD]
    have hd0 : d0 < 10 := hlt d0 (by simp [hD])
    simp only [List.map_cons, List.cons_append, parseNat,
      digitChar_isDigit d0 hd0, if_true]
    rw [show (digitChar d0 :: (D'.map digitChar ++ rest) : List Char)
          = (d0 :: D').map digitChar ++ rest from by simp]
    rw [parseNatAux_digits (d0 :: D') 0 rest (by rw [← hD]; exact hlt) h]
    rw [← hD, hfold]

/-! ### Splitting on the `$` separator

Models `strings.Split(s, "$")`. -/

/-- `strings.Split(s, "$")`. -/
def splitOnDollar : List Char → List (List Char)
  | [] => [[]]
  | c :: cs =>
    if c = '$' then [] :: splitOnDollar cs
    else
      match splitOnDollar cs with
      | [] => [[c]]
      | f :: fs => (c :: f) :: fs

theorem splitOnDollar_ne_nil : ∀ l, splitOnDollar l ≠ [] := by
  intro l
  cases l with
  | nil => simp [splitOnDollar]
  | cons c cs =>
    simp only [splitOnDollar]
    by_cases h : c = '$'
    · simp [h]
    · simp only [h, if_false]
      cases splitOnDollar cs <;> simp

theorem splitOnDollar_append (f cs : List Char) (h : ∀ c ∈ f, c ≠ '$') :
    splitOnDollar (f ++ '$' :: cs) = f :: splitOnDollar cs := by
  induction f with
  | nil => simp [splitOnDollar]
  | cons a f' ih =>
    have ha : a ≠ '$' := h a (by simp)
    have h' : ∀ c ∈ f', c ≠ '$' := fun c hc => h c (by simp [hc])
    simp only [List.cons_append, splitOnDollar, ha, if_false, List.append_eq]
    rw [ih h']

theorem splitOnDollar_none (f : List Char) (h : ∀ c ∈ f, c ≠ '$') :
    splitOnDollar f = [f] := by
  induction f with
  | nil => rfl
  | cons a f' ih =>
    have ha : a ≠ '$' := h a (by simp)
    have h' : ∀ c ∈ f', c ≠ '$' := fun c hc => h c (by simp [hc])
    simp only [splitOnDollar, ha, if_false]
    rw [ih h']

/-! ### Raw (unpadded) standard base64

Models Go's `base64.RawStdEncoding.EncodeToString` and
`base64.RawStdEncoding.Strict().DecodeString`.  Go's decoder skips CR and LF
characters anywhere in the input; `Strict()` additionally requires the unused
trailing bits of a final partial group to be zero. -/

/-- The standard base64 alphabet. -/
def b64Chars : List Char :=
  "ABCDEFGHIJKLMNOPQRSTUVWXYZabcdefghijklmnopqrstuvwxyz0123456789+/".toList

/-- Character for a six-bit value. -/
def sextetToChar (s : Nat) : Char := b64Chars.getD s 'A'

/-- Inverse of the base64 alphabet; `none` for characters outside it. -/
def charToSextet (c : Char) : Option Nat :=
  if 'A' ≤ c ∧ c ≤ 'Z' then some (c.toNat - 65)
  else if 'a' ≤ c ∧ c ≤ 'z' then some (c.toNat - 97 + 26)
  else if '0' ≤ c ∧ c ≤ '9' then some (c.toNat - 48 + 52)
  else if c = '+' then some 62
  else if c = '/' then some 63
  else none

/-- Unpadded standard base64 encoding of a byte list
(`base64.RawStdEncoding.EncodeToString`). -/
def b64Encode : List Nat → List Char
  | [] => []
  | [b1] => [sextetToChar (b1 / 4), sextetToChar (b1 % 4 * 16)]
  | [b1, b2] => [sextetToChar (b1 / 4), sextetToChar (b1 % 4 * 16 + b2 / 16),
      sextetToChar (b2 % 16 * 4)]
  | b1 :: b2 :: b3 :: rest =>
      sextetToChar (b1 / 4) :: sextetToChar (b1 % 4 * 16 + b2 / 16) ::
      sextetToChar (b2 % 16 * 4 + b3 / 64) :: sextetToChar (b3 % 64) ::
      b64Encode rest

/-- Strict unpadded base64 decoding of a (CR/LF-free) character list. -/
def b64DecodeChunks : List Char → Option (List Nat)
  | [] => some []
  | [_] => none
  | [c1, c2] =>
    match charToSextet c1, charToSextet c2 with
    | some s1, some s2 =>
      if s2 % 16 = 0 then some [s1 * 4 + s2 / 16] else none
    | _, _ => none
  | [c1, c2, c3] =>
    match charToSextet c1, charToSextet c2, charToSextet c3 with
    | some s1, some s2, some s3 =>
      if s3 % 4 = 0 then some [s1 * 4 + s2 / 16, s2 % 16 * 16 + s3 / 4] else none
    | _, _, _ => none
  | c1 :: c2 :: c3 :: c4 :: rest =>
    match charToSextet c1, charToSextet c2, charToSextet c3, charToSextet c4 with
    | some s1, some s2, some s3, some s4 =>
      match b64DecodeChunks rest with
      | some bs =>
        some ((s1 * 4 + s2 / 16) :: (s2 % 16 * 16 + s3 / 4) :: (s3 % 4 * 64 + s4) :: bs)
      | none => none
    | _, _, _, _ => none

/-- `base64.RawStdEncoding.Strict().DecodeString`: CR and LF are skipped, the
rest is decoded strictly. -/
def b64Decode (s : List Char) : Option (List Nat) :=
  b64DecodeChunks (s.filter fun c => !(c == '\r' || c == '\n'))

/-- Three-at-a-time recursion principle matching `b64Encode`'s structure. -/
def threeStepInd {motive : List Nat → Prop} (h0 : motive [])
    (h1 : ∀ a, motive [a]) (h2 : ∀ a b, motive [a, b])
    (h3 : ∀ a b c rest, motive rest → motive (a :: b :: c :: rest)) :
    ∀ l, motive l
  | [] => h0
  | [a] => h1 a
  | [a, b] => h2 a b
  | a :: b :: c :: rest => h3 a b c rest (threeStepInd h0 h1 h2 h3 rest)

theorem charToSextet_sextetToChar : ∀ s, s < 64 → charToSextet (sextetToChar s) = some s := by
  decide

theorem sextetToChar_ne_dollar : ∀ s, s < 64 → sextetToChar s ≠ '$' := by decide

theorem sextetToChar_not_crlf :
    ∀ s, s < 64 → (!(sextetToChar s == '\r' || sextetToChar s == '\n')) = true := by decide

theorem b64Encode_mem (bytes : List Nat) (h : ∀ b ∈ bytes, b < 256) :
    ∀ c ∈ b64Encode bytes, ∃ s, s < 64 ∧ c = sextetToChar s := by
  induction bytes using threeStepInd with
  | h0 => intro c hc; simp [b64Encode] at hc
  | h1 a =>
    intro c hc
    have ha : a < 256 := h a (by simp)
    simp only [b64Encode, List.mem_cons, List.mem_singleton, List.not_mem_nil,
      or_false] at hc
    rcases hc with h' | h'
    · exact ⟨a / 4, by omega, h'⟩
    · exact ⟨a % 4 * 16, by omega, h'⟩
  | h2 a b =>
    intro c hc
    have ha : a < 256 := h a (by simp)
    have hb : b < 256 := h b (by simp)
    simp only [b64Encode, List.mem_cons, List.not_mem_nil, or_false] at hc
    rcases hc with h' | h' | h'
    · exact ⟨a / 4, by omega, h'⟩
    · exact ⟨a % 4 * 16 + b / 16, by omega, h'⟩
    · exact ⟨b % 16 * 4, by omega, h'⟩
  | h3 a b d rest ih =>
    intro c hc
    have ha : a < 256 := h a (by simp)
    have hb : b < 256 := h b (by simp)
    have hd : d < 256 := h d (by simp)
    have hrest : ∀ x ∈ rest, x < 256 := fun x hx => h x (by simp [hx])
    simp only [b64Encode, List.mem_cons] at hc
    rcases hc with h' | h' | h' | h' | h'
    · exact ⟨a / 4, by omega, h'⟩
    · exact ⟨a % 4 * 16 + b / 16, by omega, h'⟩
    · exact ⟨b % 16 * 4 + d / 64, by omega, h'⟩
    · exact ⟨d % 64, by omega, h'⟩
    · exact ih hrest c h'

theorem b64Encode_no_dollar (bytes : List Nat) (h : ∀ b ∈ bytes, b < 256) :
    ∀ c ∈ b64Encode bytes, c ≠ '$' := by
  intro c hc
  obtain ⟨s, hs, rfl⟩ := b64Encode_mem bytes h c hc
  exact sextetToChar_ne_dollar s hs

theorem b64Encode_filter (bytes : List Nat) (h : ∀ b ∈ bytes, b < 256) :
    (b64Encode bytes).filter (fun c => !(c == '\r' || c == '\n')) = b64Encode bytes := by
  rw [List.filter_eq_self]
  intro c hc
  obtain ⟨s, hs, rfl⟩ := b64Encode_mem bytes h c hc
  exact sextetToChar_not_crlf s hs

theorem b64DecodeChunks_encode (bytes : List Nat) (h : ∀ b ∈ bytes, b < 256) :
    b64DecodeChunks (b64Encode bytes) = some bytes := by
  induction bytes using threeStepInd with
  | h0 => rfl
  | h1 a =>
    have ha : a < 256 := h a (by simp)
    simp only [b64Encode, b64DecodeChunks,
      charToSextet_sextetToChar (a / 4) (by omega),
      charToSextet_sextetToChar (a % 4 * 16) (by omega)]
    rw [if_pos (by omega)]
    congr 2
    omega
  | h2 a b =>
    have ha : a < 256 := h a (by simp)
    have hb : b < 256 := h b (by simp)
    simp only [b64Encode, b64DecodeChunks,
      charToSextet_sextetToChar (a / 4) (by omega),
      charToSextet_sextetToChar (a % 4 * 16 + b / 16) (by omega),
      charToSextet_sextetToChar (b % 16 * 4) (by omega)]
    rw [if_pos (by omega)]
    congr 1
    have e1 : a / 4 * 4 + (a % 4 * 16 + b / 16) / 16 = a := by omega
    have e2 : (a % 4 * 16 + b / 16) % 16 * 16 + b % 16 * 4 / 4 = b := by omega
    rw [e1, e2]
  | h3 a b d rest ih =>
    have ha : a < 256 := h a (by simp)
    have hb : b < 256 := h b (by simp)
    have hd : d < 256 := h d (by simp)
    have hrest : ∀ x ∈ rest, x < 256 := fun x hx => h x (by simp [hx])
    simp only [b64Encode, b64DecodeChunks,
      charToSextet_sextetToChar (a / 4) (by omega),
      charToSextet_sextetToChar (a % 4 * 16 + b / 16) (by omega),
      charToSextet_sextetToChar (b % 16 * 4 + d / 64) (by omega),
      charToSextet_sextetToChar (d % 64) (by omega), ih hrest]
    congr 1
    have e1 : a / 4 * 4 + (a % 4 * 16 + b / 16) / 16 = a := by omega
    have e2 : (a % 4 * 16 + b / 16) % 16 * 16 + (b % 16 * 4 + d / 64) / 4 = b := by omega
    have e3 : (b % 16 * 4 + d / 64) % 4 * 64 + d % 64 = d := by omega
    rw [e1, e2, e3]

theorem b64Decode_encode (bytes : List Nat) (h : ∀ b ∈ bytes, b < 256) :
    b64Decode (b64Encode bytes) = some bytes := by
  rw [b64Decode, b64Encode_filter bytes h, b64DecodeChunks_encode bytes h]

/-! ### The credential codec (part_000 `GenerateFromPassword`, part_002 `DecodeHash`)

The encoded credential is
`$argon2id$v=<version>$m=<m>,t=<t>,p=<p>$<b64 salt>$<b64 key>`. -/

/-- Argon2 password-derivation parameters (struct `PasswordParams`).
Go types: `memory, iterations, saltLength, keyLength : uint32`,
`parallelism : uint8`. -/
structure PasswordParams where
  memory : Nat
  iterations : Nat
  parallelism : Nat
  saltLength : Nat
  keyLength : Nat
deriving DecidableEq

/-- `argon2.Version` of golang.org/x/crypto/argon2 (0x13). -/
def argon2Version : Nat := 19

/-- The process-wide current parameters (`defaultPasswordParams`). -/
def defaultPasswordParams : PasswordParams :=
  { memory := 65536, iterations := 10, parallelism := 1, saltLength := 16, keyLength := 32 }

/-- The distinct error values `DecodeHash` can return: the sentinels
`ErrInvalidHash` and `ErrIncompatibleVersion`, an error propagated from
`fmt.Sscanf`, and a `base64.CorruptInputError` propagated from
`DecodeString`. -/
inductive DecodeError
  | invalidHash
  | incompatibleVersion
  | scanError
  | base64Error
deriving DecidableEq

/-- `fmt.Sscanf(vals[2], "v=%d", &version)`. -/
def scanVField : List Char → Option Nat
  | 'v' :: '=' :: rest =>
    match parseNat rest with
    | some (v, _) => some v
    | none => none
  | _ => none

/-- `fmt.Sscanf(vals[3], "m=%d,t=%d,p=%d", &p.memory, &p.iterations,
&p.parallelism)`; the bound checks model the `uint32`/`uint8` targets, on
which `Sscanf` fails with an overflow error. -/
def scanParamsField : List Char → Option (Nat × Nat × Nat)
  | 'm' :: '=' :: rest =>
    match parseNat rest with
    | some (m, ',' :: 't' :: '=' :: rest2) =>
      match parseNat rest2 with
      | some (t, ',' :: 'p' :: '=' :: rest4) =>
        match parseNat rest4 with
        | some (par, _) =>
          if m < 4294967296 ∧ t < 4294967296 ∧ par < 256 then some (m, t, par) else none
        | none => none
      | _ => none
    | _ => none
  | _ => none

/-- `DecodeHash` (part_002 lines 187-221): split on `$`, require six fields,
scan the version, compare it with `argon2.Version`, scan the cost parameters,
base64-decode salt and key, and infer `saltLength`/`keyLength` from the
decoded byte lengths. -/
def DecodeHash (encodedHash : List Char) : Except DecodeError (PasswordParams × List Nat × List Nat) :=
  let vals := splitOnDollar encodedHash
  if vals.length = 6 then
    match scanVField (vals.getD 2 []) with
    | none => .error .scanError
    | some version =>
      if version = argon2Version then
        match scanParamsField (vals.getD 3 []) with
        | none => .error .scanError
        | some (m, t, par) =>
          match b64Decode (vals.getD 4 []) with
          | none => .error .base64Error
          | some salt =>
            match b64Decode (vals.getD 5 []) with
            | none => .error .base64Error
            | some hash =>
              .ok ({ memory := m, iterations := t, parallelism := par,
                     saltLength := salt.length, keyLength := hash.length }, salt, hash)
      else .error .incompatibleVersion
  else .error .invalidHash

/-- The `m=%d,t=%d,p=%d` field written by `fmt.Sprintf`. -/
def paramsField (p : PasswordParams) : List Char :=
  'm' :: '=' :: (toDecimal p.memory ++
    (',' :: 't' :: '=' :: (toDecimal p.iterations ++
      (',' :: 'p' :: '=' :: toDecimal p.parallelism))))

/-- The full credential string written by `fmt.Sprintf("$argon2id$v=%d$m=%d,t=%d,p=%d$%s$%s", ...)`. -/
def encodeCredential (p : PasswordParams) (salt hash : List Nat) : List Char :=
  '$' :: ("argon2id".toList ++
    ('$' :: ('v' :: '=' :: (toDecimal argon2Version ++
      ('$' :: (paramsField p ++
        ('$' :: (b64Encode salt ++
          ('$' :: b64Encode hash)))))))))

/-- Abstract interface of `argon2.IDKey` (third-party): arguments are
password, salt, iterations (time), memory, parallelism (threads), and key
length. -/
def KDF : Type := List Char → List Nat → Nat → Nat → Nat → Nat → List Nat

/-- `GenerateFromPassword` (part_000 lines 196-216), with the freshly drawn
random salt made explicit as an argument and `argon2.IDKey` abstracted. -/
def GenerateFromPassword (idKey : KDF) (password : List Char) (p : PasswordParams)
    (salt : List Nat) : List Char :=
  encodeCredential p salt (idKey password salt p.iterations p.memory p.parallelism p.keyLength)

/-- `subtle.ConstantTimeCompare`: 0 on length mismatch, otherwise 1 exactly
when the OR of all byte XORs is zero. -/
def constantTimeCompare (x y : List Nat) : Nat :=
  if x.length = y.length then
    if (List.zipWith (fun a b => a ^^^ b) x y).foldl (fun a b => a ||| b) 0 = 0 then 1 else 0
  else 0

/-- `ComparePasswordAndHash` (part_002 lines 167-185). -/
def ComparePasswordAndHash (idKey : KDF) (password encodedHash : List Char) :
    Except DecodeError Bool :=
  match DecodeHash encodedHash with
  | .error e => .error e
  | .ok (p, salt, hash) =>
    let otherHash := idKey password salt p.iterations p.memory p.parallelism p.keyLength
    if constantTimeCompare hash otherHash = 1 then .ok true else .ok false

theorem toDecimal_mem (n : Nat) : ∀ c ∈ toDecimal n, ∃ d, d < 10 ∧ c = digitChar d := by
  intro c hc
  by_cases h0 : n = 0
  · subst h0
    rw [show toDecimal 0 = ['0'] from rfl] at hc
    simp only [List.mem_singleton] at hc
    subst hc
    exact ⟨0, by omega, by decide⟩
  · simp only [toDecimal, h0, if_false, List.mem_map] at hc
    obtain ⟨d, hd, rfl⟩ := hc
    exact ⟨d, revDigits_lt n n d (List.mem_reverse.mp hd), rfl⟩

theorem paramsField_no_dollar (p : PasswordParams) : ∀ c ∈ paramsField p, c ≠ '$' := by
  intro c hc
  simp only [paramsField, List.mem_cons, List.mem_append] at hc
  rcases hc with rfl | rfl | hc
  · decide
  · decide
  · rcases hc with hc | hc
    · obtain ⟨d, hd, rfl⟩ := toDecimal_mem _ c hc
      exact digitChar_ne_dollar d hd
    · rcases hc with rfl | rfl | rfl | hc
      · decide
      · decide
      · decide
      · rcases hc with hc | hc
        · obtain ⟨d, hd, rfl⟩ := toDecimal_mem _ c hc
          exact digitChar_ne_dollar d hd
        · rcases hc with rfl | rfl | rfl | hc
          · decide
          · decide
          · decide
          · obtain ⟨d, hd, rfl⟩ := toDecimal_mem _ c hc
            exact digitChar_ne_dollar d hd

theorem splitOnDollar_encodeCredential (p : PasswordParams) (salt hash : List Nat)
    (hsb : ∀ b ∈ salt, b < 256) (hhb : ∀ b ∈ hash, b < 256) :
    splitOnDollar (encodeCredential p salt hash) =
      [[], "argon2id".toList, 'v' :: '=' :: toDecimal argon2Version, paramsField p,
       b64Encode salt, b64Encode hash] := by
  have hform : encodeCredential p salt hash =
      '$' :: ("argon2id".toList ++ ('$' :: (('v' :: '=' :: toDecimal argon2Version) ++
        ('$' :: (paramsField p ++ ('$' :: (b64Encode salt ++
          ('$' :: b64Encode hash)))))))) := rfl
  rw [hform]
  rw [show ∀ l, splitOnDollar ('$' :: l) = [] :: splitOnDollar l from
    fun l => by simp [splitOnDollar]]
  rw [splitOnDollar_append _ _ (by decide)]
  rw [splitOnDollar_append _ _ (by decide)]
  rw [splitOnDollar_append _ _ (paramsField_no_dollar p)]
  rw [splitOnDollar_append _ _ (b64Encode_no_dollar salt hsb)]
  rw [splitOnDollar_none _ (b64Encode_no_dollar hash hhb)]

theorem scanParamsField_paramsField (p : PasswordParams)
    (hm : p.memory < 4294967296) (ht : p.iterations < 4294967296)
    (hpar : p.parallelism < 256) :
    scanParamsField (paramsField p) = some (p.memory, p.iterations, p.parallelism) := by
  have h1 := parseNat_toDecimal p.memory
    (',' :: 't' :: '=' :: (toDecimal p.iterations ++
      (',' :: 'p' :: '=' :: toDecimal p.parallelism))) rfl
  have h2 := parseNat_toDecimal p.iterations
    (',' :: 'p' :: '=' :: toDecimal p.parallelism) rfl
  have h3 : parseNat (toDecimal p.parallelism) = some (p.parallelism, []) := by
    have := parseNat_toDecimal p.parallelism [] (by decide)
    simpa using this
  simp only [paramsField, scanParamsField, h1, h2, h3]
  rw [if_pos ⟨hm, ht, hpar⟩]

theorem scanVField_version : scanVField ('v' :: '=' :: toDecimal argon2Version) = some argon2Version := by
  decide

theorem decodeHash_encodeCredential (p : PasswordParams) (salt hash : List Nat)
    (hsb : ∀ b ∈ salt, b < 256) (hhb : ∀ b ∈ hash, b < 256)
    (hm : p.memory < 4294967296) (ht : p.iterations < 4294967296)
    (hpar : p.parallelism < 256) :
    DecodeHash (encodeCredential p salt hash) =
      .ok ({ memory := p.memory, iterations := p.iterations, parallelism := p.parallelism,
             saltLength := salt.length, keyLength := hash.length }, salt, hash) := by
  have hsplit := splitOnDollar_encodeCredential p salt hash hsb hhb
  simp [DecodeHash, hsplit, scanVField_version, scanParamsField_paramsField p hm ht hpar,
    b64Decode_encode salt hsb, b64Decode_encode hash hhb]

theorem zipWith_xor_self : ∀ x : List Nat,
    List.zipWith (fun a b => a ^^^ b) x x = List.map (fun _ => 0) x := by
  intro x
  induction x with
  | nil => rfl
  | cons a t ih =>
    simp only [List.zipWith_cons_cons, List.map_cons, Nat.xor_self]
    rw [ih]

theorem foldl_or_map_zero : ∀ x : List Nat,
    (List.map (fun _ => (0 : Nat)) x).foldl (fun a b => a ||| b) 0 = 0 := by
  intro x
  induction x with
  | nil => rfl
  | cons a t ih =>
    simp only [List.map_cons, List.foldl_cons, Nat.zero_or]
    exact ih

theorem constantTimeCompare_self (x : List Nat) : constantTimeCompare x x = 1 := by
  unfold constantTimeCompare
  rw [if_pos rfl, zipWith_xor_self, if_pos (foldl_or_map_zero x)]

theorem decodeHash_generate (idKey : KDF)
    (hlen : ∀ pwd s t m par k, (idKey pwd s t m par k).length = k)
    (hbyte : ∀ pwd s t m par k, ∀ b ∈ idKey pwd s t m par k, b < 256)
    (password : List Char) (p : PasswordParams) (salt : List Nat)
    (hsalt : salt.length = p.saltLength) (hsb : ∀ b ∈ salt, b < 256)
    (hm : p.memory < 4294967296) (ht : p.iterations < 4294967296)
    (hpar : p.parallelism < 256) :
    DecodeHash (GenerateFromPassword idKey password p salt) =
      .ok (p, salt, idKey password salt p.iterations p.memory p.parallelism p.keyLength) := by
  have hh := hbyte password salt p.iterations p.memory p.parallelism p.keyLength
  have hk := hlen password salt p.iterations p.memory p.parallelism p.keyLength
  unfold GenerateFromPassword
  rw [decodeHash_encodeCredential p salt _ hsb hh hm ht hpar]
  rw [show ({ memory := p.memory, iterations := p.iterations,
              parallelism := p.parallelism, saltLength := salt.length,
              keyLength := (idKey password salt p.iterations p.memory p.parallelism
                p.keyLength).length } : PasswordParams) = p from by rw [hsalt, hk]]

/-! ### The user record and the login orchestration (part_002 `Login`)

Times are modelled as `Int` Unix seconds; `time.Now().Before(x)` is `now < x`
and `time.Now().Add(d)` is `now + d` in seconds. -/

/-- The `User` struct (user.go). -/
structure UserRec where
  createdAt : Int
  updatedAt : Int
  lastLoginAt : Int
  verifiedAt : Option Int
  lockedUntil : Option Int
  id : List Char
  email : List Char
  password : List Char
  name : List Char
  loginAttempts : Int
  isVerified : Bool
deriving DecidableEq

/-- The terminal outcomes of a `Login` request. -/
inductive LoginOutcome
  | invalidCredentials
  | accountLocked
  | accountUnverified
  | success
  | serverError
deriving DecidableEq

/-- Result of one `Login` attempt against a found user: the HTTP outcome, the
user record as persisted by the handler, and whether
`ComparePasswordAndHash` was invoked. -/
structure LoginResult where
  outcome : LoginOutcome
  user : UserRec
  verifierInvoked : Bool
deriving DecidableEq

/-- `user.LockedUntil != nil && time.Now().Before(*user.LockedUntil)`. -/
def lockActive (now : Int) (u : UserRec) : Bool :=
  match u.lockedUntil with
  | none => false
  | some t => now < t

/-- The failed-verification update of `Login` (part_002 lines 61-77):
increment `LoginAttempts`; if the new count is at least 5, set `LockedUntil`
to fifteen minutes from now; persist both fields. -/
def failedLoginUpdate (now : Int) (u : UserRec) : UserRec :=
  let attempts := u.loginAttempts + 1
  if attempts ≥ 5 then
    { u with loginAttempts := attempts, lockedUntil := some (now + 15 * 60) }
  else
    { u with loginAttempts := attempts }

/-- The successful-login update of `Login` (part_002 lines 92-95):
reset `LoginAttempts` to 0, clear `LockedUntil`, stamp `LastLoginAt`. -/
def successLoginUpdate (now : Int) (u : UserRec) : UserRec :=
  { u with loginAttempts := 0, lockedUntil := none, lastLoginAt := now }

/-- One `Login` attempt against a found user (part_002 lines 47-133).
`cmp` is the result of `ComparePasswordAndHash` for the submitted password
against `u.password`; `signOk` is whether `token.SignedString` succeeds. -/
def loginStep (now : Int) (cmp : Except DecodeError Bool) (signOk : Bool)
    (u : UserRec) : LoginResult :=
  if lockActive now u then
    { outcome := .accountLocked, user := u, verifierInvoked := false }
  else
    match cmp with
    | .error _ => { outcome := .invalidCredentials, user := u, verifierInvoked := true }
    | .ok false =>
      { outcome := .invalidCredentials, user := failedLoginUpdate now u,
        verifierInvoked := true }
    | .ok true =>
      if u.isVerified = false then
        { outcome := .accountUnverified, user := u, verifierInvoked := true }
      else if signOk then
        { outcome := .success, user := successLoginUpdate now u, verifierInvoked := true }
      else
        { outcome := .serverError, user := u, verifierInvoked := true }

/-- The whole `Login` flow including the account lookup (part_002 lines
39-45): a missing account short-circuits to `InvalidCredentials` before any
verification. -/
structure LoginFlowResult where
  outcome : LoginOutcome
  user : Option UserRec
  verifierInvoked : Bool
deriving DecidableEq

/-- `Login` with the `FindOne` result made explicit: `none` models
`mongo.ErrNoDocuments` for the submitted email. -/
def loginFlow (now : Int) (account : Option UserRec) (cmp : Except DecodeError Bool)
    (signOk : Bool) : LoginFlowResult :=
  match account with
  | none => { outcome := .invalidCredentials, user := none, verifierInvoked := false }
  | some u =>
    let r := loginStep now cmp signOk u
    { outcome := r.outcome, user := some r.user, verifierInvoked := r.verifierInvoked }

/-- The HTTP status and error body `Login` writes for each outcome (for
`success` the body carries the token instead of an error string; it is
modelled as the empty error). -/
def loginResponse : LoginOutcome → Nat × List Char
  | .invalidCredentials => (401, "Invalid credentials".toList)
  | .accountLocked => (423, "Account temporarily locked".toList)
  | .accountUnverified =>
      (403, ("Please verify your email address before logging in. " ++
        "Check your email for a verification link.").toList)
  | .success => (200, [])
  | .serverError => (500, "Server error".toList)

/-! ### The session token (part_002 lines 98-112, part_000 `Authenticate`)

The JWT library (golang-jwt/v5) is third-party; tokens are modelled
structurally as a header algorithm, a claim set and a signature, and the
HMAC signer is an abstract parameter.  `jwt.Parse` runs the key function
(which rejects non-HMAC algorithms) before verifying the signature, then
validates the registered time claims; `Authenticate` re-checks `exp`, `iat`
and the subject after parsing. -/

/-- JWT header algorithms relevant here. -/
inductive JWTAlg
  | HS256
  | HS384
  | HS512
  | RS256
  | ES256
deriving DecidableEq

/-- Whether the algorithm belongs to the `jwt.SigningMethodHMAC` family. -/
def JWTAlg.isHMAC : JWTAlg → Bool
  | .HS256 => true
  | .HS384 => true
  | .HS512 => true
  | .RS256 => false
  | .ES256 => false

/-- The claim set `Login` puts in a session token. -/
structure SessionClaims where
  iat : Int
  sub : List Char
  exp : Int
  jti : List Char
  iss : List Char
  aud : List Char
deriving DecidableEq

/-- A structural JWT: header algorithm, claims, signature. -/
structure SessionToken where
  alg : JWTAlg
  claims : SessionClaims
  sig : Nat
deriving DecidableEq

/-- Abstract HMAC signing function: secret, header algorithm and claim set to
signature value. -/
def SignFun : Type := List Char → JWTAlg → SessionClaims → Nat

/-- Token issuance in `Login` (part_002 lines 98-107): HS512, `iat = now`,
`exp = now + 24h`, fresh `jti`, fixed issuer and audience, signed with the
`JWT_SECRET`. -/
def issueToken (sign : SignFun) (secret : List Char) (userID : List Char)
    (now : Int) (jtiVal : List Char) : SessionToken :=
  let claims : SessionClaims :=
    { iat := now, sub := userID, exp := now + 24 * 60 * 60, jti := jtiVal,
      iss := "flight-history-app".toList, aud := "flight-history-users".toList }
  { alg := .HS512, claims := claims, sig := sign secret .HS512 claims }

/-- The distinct rejection causes of token validation in `Authenticate`. -/
inductive AuthError
  | unexpectedAlgorithm
  | invalidSignature
  | expired
  | notYetValid
  | invalidClaims
deriving DecidableEq

/-- Token validation as performed by `jwt.Parse` with `Authenticate`'s key
function, followed by `Authenticate`'s own claim checks (part_000 lines
103-182): reject a non-HMAC header algorithm in the key function (before any
signature verification), verify the signature, reject an expired token
(`jwt.Parse` requires `now < exp`; `Authenticate` re-checks
`exp.Before(now)`), reject a future `iat`, and validate the subject as a
UUID (`uuidOk` abstracts `uuid.Parse`). -/
def validateToken (sign : SignFun) (uuidOk : List Char → Bool) (secret : List Char)
    (now : Int) (tok : SessionToken) : Except AuthError (List Char) :=
  if tok.alg.isHMAC = false then .error .unexpectedAlgorithm
  else if tok.sig ≠ sign secret tok.alg tok.claims then .error .invalidSignature
  else if tok.claims.exp ≤ now then .error .expired
  else if tok.claims.exp < now then .error .expired
  else if now < tok.claims.iat then .error .notYetValid
  else if uuidOk tok.claims.sub = false then .error .invalidClaims
  else .ok tok.claims.sub

/-! ### Action-token redemption flows (email_verification.go `VerifyEmail`,
password_reset.go `ResetPassword`)

Both flows are modelled from the point where the handler has already found a
redeemable token record (`used == false`, `expires_at > now`) and the
associated user, and has the new data in hand.  `userUpdateOk` and
`tokenUpdateOk` model success of the two store writes. -/

/-- The mutable part of an action-token record (`EmailVerification` /
`PasswordReset`). -/
structure TokenRec where
  used : Bool
  usedAt : Option Int
deriving DecidableEq

/-- Joint result of a redemption flow: HTTP status, stored user record,
stored token record. -/
structure RedeemResult where
  status : Nat
  user : UserRec
  token : TokenRec
deriving DecidableEq

/-- The user update of `ResetPassword` (password_reset.go lines 214-230):
new password hash, `updated_at = now`, `login_attempts = 0`,
`locked_until = nil`. -/
def resetPasswordUpdate (newHash : List Char) (now : Int) (u : UserRec) : UserRec :=
  { u with password := newHash, updatedAt := now, loginAttempts := 0, lockedUntil := none }

/-- Tail of `ResetPassword` (password_reset.go lines 214-255): update the
user first; on failure respond 500 and stop (the token record is untouched);
then mark the token used with `used_at = now`; a failure of that write is
logged and the request still succeeds. -/
def resetPasswordFlow (now : Int) (u : UserRec) (tok : TokenRec) (newHash : List Char)
    (userUpdateOk tokenUpdateOk : Bool) : RedeemResult :=
  if userUpdateOk then
    let u' := resetPasswordUpdate newHash now u
    let tok' := if tokenUpdateOk then { used := true, usedAt := some now } else tok
    { status := 200, user := u', token := tok' }
  else
    { status := 500, user := u, token := tok }

/-- The user update of `VerifyEmail` (email_verification.go lines 122-130):
`is_verified = true`, `verified_at = now`, `updated_at = now`. -/
def verifyEmailUpdate (now : Int) (u : UserRec) : UserRec :=
  { u with isVerified := true, verifiedAt := some now, updatedAt := now }

/-- Tail of `VerifyEmail` (email_verification.go lines 122-167): same shape
as `resetPasswordFlow` — user update first, token marked used only
afterwards. -/
def verifyEmailFlow (now : Int) (u : UserRec) (tok : TokenRec)
    (userUpdateOk tokenUpdateOk : Bool) : RedeemResult :=
  if userUpdateOk then
    let u' := verifyEmailUpdate now u
    let tok' := if tokenUpdateOk then { used := true, usedAt := some now } else tok
    { status := 200, user := u', token := tok' }
  else
    { status := 500, user := u, token := tok }

/-! ### Secret generation (part_004 `generateVerificationToken`,
password_reset.go `generatePasswordResetToken`)

The four / thirty-two random bytes drawn from `crypto/rand` are explicit
arguments. -/

/-- The numeric token of `generateVerificationToken` (part_004 lines
102-116): big-endian 32-bit value of the four bytes, constrained by modulo
into 10000000-99999999. -/
def generateVerificationTokenNum (b0 b1 b2 b3 : Nat) : Nat :=
  10000000 + (b0 <<< 24 ||| b1 <<< 16 ||| b2 <<< 8 ||| b3) % 90000000

/-- `fmt.Sprintf("%08d", n)`: left-pad the decimal rendering with zeros to
width 8. -/
def padZeros8 (s : List Char) : List Char :=
  List.replicate (8 - s.length) '0' ++ s

/-- `generateVerificationToken`, with the four random bytes explicit. -/
def generateVerificationToken (b0 b1 b2 b3 : Nat) : List Char :=
  padZeros8 (toDecimal (generateVerificationTokenNum b0 b1 b2 b3))

/-- Lowercase hexadecimal digit characters. -/
def hexDigitChar (n : Nat) : Char :=
  "0123456789abcdef".toList.getD n '0'

/-- `hex.EncodeToString`: two lowercase hex digits per byte, high nibble
first. -/
def hexEncode : List Nat → List Char
  | [] => []
  | b :: bs => hexDigitChar (b / 16) :: hexDigitChar (b % 16) :: hexEncode bs

/-- `generatePasswordResetToken` (password_reset.go lines 39-45), with the
thirty-two random bytes explicit. -/
def generatePasswordResetToken (bytes : List Nat) : List Char :=
  hexEncode bytes

theorem revDigits_zero : ∀ fuel, revDigits fuel 0 = [] := by
  intro fuel
  cases fuel with
  | zero => rfl
  | succ f => simp [revDigits]

theorem revDigits_length :
    ∀ k n fuel, n ≤ fuel → 10 ^ k ≤ n → n < 10 ^ (k + 1) →
      (revDigits fuel n).length = k + 1 := by
  intro k
  induction k with
  | zero =>
    intro n fuel hle h1 h2
    simp only [pow_zero, pow_one] at h1 h2
    cases fuel with
    | zero => omega
    | succ f =>
      have hn : n ≠ 0 := by omega
      simp only [revDigits, hn, if_false, List.length_cons]
      rw [show n / 10 = 0 from by omega, revDigits_zero]
      rfl
  | succ k ih =>
    intro n fuel hle h1 h2
    have hp : 0 < (10 : Nat) ^ (k + 1) := pow_pos (by norm_num) _
    cases fuel with
    | zero => omega
    | succ f =>
      have hn : n ≠ 0 := by omega
      simp only [revDigits, hn, if_false, List.length_cons]
      have hs1 : (10 : Nat) ^ (k + 1) = 10 ^ k * 10 := pow_succ 10 k
      have hs2 : (10 : Nat) ^ (k + 1 + 1) = 10 ^ (k + 1) * 10 := pow_succ 10 (k + 1)
      rw [ih (n / 10) f (by omega) (by omega) (by omega)]

theorem toDecimal_length_eight (n : Nat) (h1 : 10000000 ≤ n) (h2 : n ≤ 99999999) :
    (toDecimal n).length = 8 := by
  have hn : n ≠ 0 := by omega
  simp only [toDecimal, hn, if_false, List.length_map, List.length_reverse]
  have e7 : (10 : Nat) ^ 7 = 10000000 := by norm_num
  have e8 : (10 : Nat) ^ (7 + 1) = 100000000 := by norm_num
  rw [revDigits_length 7 n n le_rfl (by omega) (by omega)]

theorem toDecimal_isDigit (n : Nat) : ∀ c ∈ toDecimal n, c.isDigit = true := by
  intro c hc
  obtain ⟨d, hd, rfl⟩ := toDecimal_mem n c hc
  exact digitChar_isDigit d hd

/-- Lowercase hexadecimal digit predicate. -/
def isLowerHexDigit (c : Char) : Bool :=
  c.isDigit || ('a' ≤ c && c ≤ 'f')

theorem hexDigitChar_isHex : ∀ n, n < 16 → isLowerHexDigit (hexDigitChar n) = true := by
  decide

theorem hexEncode_length : ∀ bytes : List Nat, (hexEncode bytes).length = 2 * bytes.length := by
  intro bytes
  induction bytes with
  | nil => rfl
  | cons b bs ih =>
    simp only [hexEncode, List.length_cons, ih]
    ring

theorem hexEncode_mem : ∀ bytes : List Nat, (∀ b ∈ bytes, b < 256) →
    ∀ c ∈ hexEncode bytes, isLowerHexDigit c = true := by
  intro bytes
  induction bytes with
  | nil => intro _ c hc; simp [hexEncode] at hc
  | cons b bs ih =>
    intro h c hc
    have hb : b < 256 := h b (by simp)
    have hbs : ∀ x ∈ bs, x < 256 := fun x hx => h x (by simp [hx])
    simp only [hexEncode, List.mem_cons] at hc
    rcases hc with rfl | rfl | hc
    · exact hexDigitChar_isHex (b / 16) (by omega)
    · exact hexDigitChar_isHex (b % 16) (by omega)
    · exact ih hbs c hc

/-! ### Claims -/

/-- C1: for every password string and every `PasswordParams` value, verifying
the password against the credential produced by encoding it with those params
succeeds: `ComparePasswordAndHash(P, GenerateFromPassword(P, params))`
returns `(true, nil)`.  The salt is the fresh random draw of
`GenerateRandomBytes(p.saltLength)`; the hypotheses on `idKey` are the
documented contract of `argon2.IDKey` (a byte slice of exactly `keyLength`
bytes), and the numeric bounds are the `uint32`/`uint8` field types of
`PasswordParams`. -/
theorem c1_compare_generate (idKey : KDF)
    (hlen : ∀ pwd s t m par k, (idKey pwd s t m par k).length = k)
    (hbyte : ∀ pwd s t m par k, ∀ b ∈ idKey pwd s t m par k, b < 256)
    (password : List Char) (p : PasswordParams) (salt : List Nat)
    (hsalt : salt.length = p.saltLength) (hsb : ∀ b ∈ salt, b < 256)
    (hm : p.memory < 4294967296) (ht : p.iterations < 4294967296)
    (hpar : p.parallelism < 256) :
    ComparePasswordAndHash idKey password (GenerateFromPassword idKey password p salt) =
      .ok true := by
  unfold ComparePasswordAndHash
  rw [decodeHash_generate idKey hlen hbyte password p salt hsalt hsb hm ht hpar]
  simp [constantTimeCompare_self]

/-- C1 witness: a concrete key-derivation function, password, params and
salt. -/
theorem c1_witness :
    ComparePasswordAndHash (fun _ _ _ _ _ k => List.replicate k 0) ['a']
      (GenerateFromPassword (fun _ _ _ _ _ k => List.replicate k 0) ['a']
        { memory := 1, iterations := 1, parallelism := 1, saltLength := 1, keyLength := 2 }
        [7]) = .ok true :=
  c1_compare_generate (fun _ _ _ _ _ k => List.replicate k 0)
    (fun _ _ _ _ _ k => by simp)
    (fun _ _ _ _ _ k => by
      intro b hb
      rw [List.eq_of_mem_replicate hb]
      omega)
    ['a']
    { memory := 1, iterations := 1, parallelism := 1, saltLength := 1, keyLength := 2 }
    [7] rfl
    (by intro b hb; simp at hb; omega)
    (by norm_num) (by norm_num) (by norm_num)

/-- C5: decoding a credential produced by the encoder recovers exactly the
original params, salt and key, with the recovered `saltLength` and
`keyLength` being the byte lengths of the decoded salt and key. -/
theorem c5_decode_roundtrip (idKey : KDF)
    (hlen : ∀ pwd s t m par k, (idKey pwd s t m par k).length = k)
    (hbyte : ∀ pwd s t m par k, ∀ b ∈ idKey pwd s t m par k, b < 256)
    (password : List Char) (p : PasswordParams) (salt : List Nat)
    (hsalt : salt.length = p.saltLength) (hsb : ∀ b ∈ salt, b < 256)
    (hm : p.memory < 4294967296) (ht : p.iterations < 4294967296)
    (hpar : p.parallelism < 256) :
    DecodeHash (GenerateFromPassword idKey password p salt) =
      .ok (p, salt, idKey password salt p.iterations p.memory p.parallelism p.keyLength) ∧
    salt.length = p.saltLength ∧
    (idKey password salt p.iterations p.memory p.parallelism p.keyLength).length =
      p.keyLength :=
  ⟨decodeHash_generate idKey hlen hbyte password p salt hsalt hsb hm ht hpar, hsalt,
   hlen password salt p.iterations p.memory p.parallelism p.keyLength⟩

/-- C5 witness: the round-trip evaluated at a concrete key-derivation
function, password, params and salt. -/
theorem c5_witness :
    DecodeHash (GenerateFromPassword (fun _ _ _ _ _ k => List.replicate k 0) ['a']
        { memory := 1, iterations := 1, parallelism := 1, saltLength := 1, keyLength := 2 }
        [7]) =
      .ok ({ memory := 1, iterations := 1, parallelism := 1, saltLength := 1, keyLength := 2 },
        [7], List.replicate 2 0) ∧
    ([7] : List Nat).length =
      ({ memory := 1, iterations := 1, parallelism := 1, saltLength := 1,
         keyLength := 2 } : PasswordParams).saltLength ∧
    (List.replicate 2 (0 : Nat)).length =
      ({ memory := 1, iterations := 1, parallelism := 1, saltLength := 1,
         keyLength := 2 } : PasswordParams).keyLength :=
  c5_decode_roundtrip (fun _ _ _ _ _ k => List.replicate k 0)
    (fun _ _ _ _ _ k => by simp)
    (fun _ _ _ _ _ k => by
      intro b hb
      rw [List.eq_of_mem_replicate hb]
      omega)
    ['a']
    { memory := 1, iterations := 1, parallelism := 1, saltLength := 1, keyLength := 2 }
    [7] rfl
    (by intro b hb; simp at hb; omega)
    (by norm_num) (by norm_num) (by norm_num)

theorem loginStep_fail_noLock (t : Int) (s : Bool) (u : UserRec)
    (hu : u.lockedUntil = none) (hlt : u.loginAttempts + 1 < 5) :
    loginStep t (.ok false) s u =
      { outcome := .invalidCredentials, user := { u with loginAttempts := u.loginAttempts + 1 },
        verifierInvoked := true } := by
  unfold loginStep
  rw [show lockActive t u = false from by simp [lockActive, hu]]
  simp only [Bool.false_eq_true, if_false]
  unfold failedLoginUpdate
  rw [if_neg (by omega)]

theorem loginStep_fail_lock (t : Int) (s : Bool) (u : UserRec)
    (hu : u.lockedUntil = none) (hge : u.loginAttempts + 1 ≥ 5) :
    loginStep t (.ok false) s u =
      { outcome := .invalidCredentials,
        user := { u with loginAttempts := u.loginAttempts + 1, lockedUntil := some (t + 15 * 60) },
        verifierInvoked := true } := by
  unfold loginStep
  rw [show lockActive t u = false from by simp [lockActive, hu]]
  simp only [Bool.false_eq_true, if_false]
  unfold failedLoginUpdate
  rw [if_pos (by omega)]

theorem loginStep_locked (t T : Int) (u : UserRec) (cmp : Except DecodeError Bool)
    (s : Bool) (hT : u.lockedUntil = some T) (hlt : t < T) :
    loginStep t cmp s u =
      { outcome := .accountLocked, user := u, verifierInvoked := false } := by
  unfold loginStep
  rw [if_pos (by simp [lockActive, hT]; exact hlt)]

theorem loginStep_success (t : Int) (u : UserRec) (hl : lockActive t u = false)
    (hv : u.isVerified = true) :
    loginStep t (.ok true) true u =
      { outcome := .success, user := successLoginUpdate t u, verifierInvoked := true } := by
  unfold loginStep
  rw [hl]
  simp [hv]

/-- The stored user record after one failed-verification login attempt at
time `t`. -/
def stepFail (t : Int) (u : UserRec) : UserRec :=
  (loginStep t (.ok false) true u).user

/-- C2: starting from an unlocked account with zero failed attempts, four
consecutive failed password verifications leave `LockedUntil` unset and the
counter at 4; the fifth failure sets `LockedUntil` to fifteen minutes after
that attempt; any attempt made while `now < LockedUntil` is rejected as
`accountLocked` with the stored record untouched and the verifier not
invoked (the same result for every verifier outcome `cmp`); and a successful
login resets the counter to 0 and clears `LockedUntil`. -/
theorem c2_lockout (u0 : UserRec) (h0 : u0.loginAttempts = 0)
    (h1 : u0.lockedUntil = none) (t1 t2 t3 t4 t5 : Int) :
    ((stepFail t4 (stepFail t3 (stepFail t2 (stepFail t1 u0)))).lockedUntil = none ∧
      (stepFail t4 (stepFail t3 (stepFail t2 (stepFail t1 u0)))).loginAttempts = 4 ∧
      (stepFail t5 (stepFail t4 (stepFail t3 (stepFail t2 (stepFail t1 u0))))).lockedUntil =
        some (t5 + 15 * 60)) ∧
    (∀ (t T : Int) (u : UserRec) (cmp : Except DecodeError Bool) (s : Bool),
      u.lockedUntil = some T → t < T →
      loginStep t cmp s u =
        { outcome := .accountLocked, user := u, verifierInvoked := false }) ∧
    (∀ (t : Int) (u : UserRec), lockActive t u = false → u.isVerified = true →
      (loginStep t (.ok true) true u).outcome = .success ∧
      ((loginStep t (.ok true) true u).user).loginAttempts = 0 ∧
      ((loginStep t (.ok true) true u).user).lockedUntil = none) := by
  refine ⟨?_, ?_, ?_⟩
  · unfold stepFail
    rw [loginStep_fail_noLock t1 true u0 h1 (by omega)]
    rw [loginStep_fail_noLock t2 true _ (by simp [h1]) (by simp; omega)]
    rw [loginStep_fail_noLock t3 true _ (by simp [h1]) (by simp; omega)]
    rw [loginStep_fail_noLock t4 true _ (by simp [h1]) (by simp; omega)]
    rw [loginStep_fail_lock t5 true _ (by simp [h1]) (by simp; omega)]
    refine ⟨by simp [h1], by simp [h0], by simp⟩
  · intro t T u cmp s hT hlt
    exact loginStep_locked t T u cmp s hT hlt
  · intro t u hl hv
    rw [loginStep_success t u hl hv]
    exact ⟨rfl, rfl, rfl⟩

/-- C2 witness: the lockout sequence evaluated on a concrete account and
concrete attempt times. -/
theorem c2_witness :
    ((stepFail 4 (stepFail 3 (stepFail 2 (stepFail 1
        (⟨0, 0, 0, none, none, [], [], [], [], 0, true⟩ : UserRec))))).lockedUntil = none ∧
      (stepFail 4 (stepFail 3 (stepFail 2 (stepFail 1
        (⟨0, 0, 0, none, none, [], [], [], [], 0, true⟩ : UserRec))))).loginAttempts = 4 ∧
      (stepFail 5 (stepFail 4 (stepFail 3 (stepFail 2 (stepFail 1
        (⟨0, 0, 0, none, none, [], [], [], [], 0, true⟩ : UserRec)))))).lockedUntil =
        some (5 + 15 * 60)) ∧
    (∀ (t T : Int) (u : UserRec) (cmp : Except DecodeError Bool) (s : Bool),
      u.lockedUntil = some T → t < T →
      loginStep t cmp s u =
        { outcome := .accountLocked, user := u, verifierInvoked := false }) ∧
    (∀ (t : Int) (u : UserRec), lockActive t u = false → u.isVerified = true →
      (loginStep t (.ok true) true u).outcome = .success ∧
      ((loginStep t (.ok true) true u).user).loginAttempts = 0 ∧
      ((loginStep t (.ok true) true u).user).lockedUntil = none) :=
  c2_lockout ⟨0, 0, 0, none, none, [], [], [], [], 0, true⟩ rfl rfl 1 2 3 4 5

/-- C3 counterexample: from an unlocked account with four failed attempts, a
fifth failed verification sets `LockedUntil` but leaves the failed-attempts
counter at 5, not 0 — a state with locked-until set and a non-zero counter is
produced by the login step, contradicting the claimed invariant. -/
theorem c3_counterexample :
    ((loginStep 0 (.ok false) true
        (⟨0, 0, 0, none, none, [], [], [], [], 4, true⟩ : UserRec)).user).lockedUntil =
        some (0 + 15 * 60) ∧
      ((loginStep 0 (.ok false) true
        (⟨0, 0, 0, none, none, [], [], [], [], 4, true⟩ : UserRec)).user).loginAttempts = 5 ∧
      ((loginStep 0 (.ok false) true
        (⟨0, 0, 0, none, none, [], [], [], [], 4, true⟩ : UserRec)).user).loginAttempts ≠ 0 := by
  refine ⟨by decide, by decide, by decide⟩

/-- C3 (amended): the failed-attempts counter is reset to 0 exactly on a
successful login (which also clears locked-until); a failure while unlocked
increments the counter, and when the new count reaches the threshold the
transition sets locked-until without resetting the counter — the reset is
deferred to the next successful login. -/
theorem c3_amended :
    (∀ (t : Int) (s : Bool) (u : UserRec), u.lockedUntil = none →
      ((loginStep t (.ok false) s u).user).loginAttempts = u.loginAttempts + 1 ∧
      (u.loginAttempts + 1 ≥ 5 →
        ((loginStep t (.ok false) s u).user).lockedUntil = some (t + 15 * 60))) ∧
    (∀ (t : Int) (u : UserRec), lockActive t u = false → u.isVerified = true →
      ((loginStep t (.ok true) true u).user).loginAttempts = 0 ∧
      ((loginStep t (.ok true) true u).user).lockedUntil = none) := by
  constructor
  · intro t s u hu
    by_cases hge : u.loginAttempts + 1 ≥ 5
    · rw [loginStep_fail_lock t s u hu hge]
      exact ⟨rfl, fun _ => rfl⟩
    · rw [loginStep_fail_noLock t s u hu (by omega)]
      exact ⟨rfl, fun hc => absurd hc hge⟩
  · intro t u hl hv
    rw [loginStep_success t u hl hv]
    exact ⟨rfl, rfl⟩

/-- C3 amended-theorem witness: the failure and success transitions evaluated
on concrete accounts. -/
theorem c3_amended_witness :
    (((loginStep 0 (.ok false) true
        (⟨0, 0, 0, none, none, [], [], [], [], 1, true⟩ : UserRec)).user).loginAttempts =
      (1 : Int) + 1 ∧
      ((1 : Int) + 1 ≥ 5 →
        ((loginStep 0 (.ok false) true
          (⟨0, 0, 0, none, none, [], [], [], [], 1, true⟩ : UserRec)).user).lockedUntil =
          some (0 + 15 * 60))) ∧
    ((loginStep 0 (.ok true) true
        (⟨0, 0, 0, none, none, [], [], [], [], 3, true⟩ : UserRec)).user).loginAttempts = 0 ∧
      ((loginStep 0 (.ok true) true
        (⟨0, 0, 0, none, none, [], [], [], [], 3, true⟩ : UserRec)).user).lockedUntil = none :=
  ⟨c3_amended.1 0 true ⟨0, 0, 0, none, none, [], [], [], [], 1, true⟩ rfl,
   c3_amended.2 0 ⟨0, 0, 0, none, none, [], [], [], [], 3, true⟩ rfl rfl⟩

/-- C4: a session token issued at time `t` carries `exp = t + 24h` and
validates successfully at `t`; the same token checked at `t + 24h + 1s`
fails with `expired`; a token whose signature does not verify against the
secret fails with `invalidSignature`; and a token whose header claims a
non-HMAC algorithm fails with `unexpectedAlgorithm` for every signature
value and every signing function — i.e. before signature verification is
attempted. -/
theorem c4_session :
    (∀ (sign : SignFun) (uuidOk : List Char → Bool) (secret userID jtiVal : List Char)
       (t : Int),
      (issueToken sign secret userID t jtiVal).claims.exp = t + 24 * 60 * 60 ∧
      (uuidOk userID = true →
        validateToken sign uuidOk secret t (issueToken sign secret userID t jtiVal) =
          .ok userID) ∧
      validateToken sign uuidOk secret (t + 24 * 60 * 60 + 1)
        (issueToken sign secret userID t jtiVal) = .error .expired) ∧
    (∀ (sign : SignFun) (uuidOk : List Char → Bool) (secret : List Char) (t : Int)
       (tok : SessionToken) (s' : Nat),
      tok.alg.isHMAC = true → s' ≠ sign secret tok.alg tok.claims →
      validateToken sign uuidOk secret t { tok with sig := s' } =
        .error .invalidSignature) ∧
    (∀ (sign : SignFun) (uuidOk : List Char → Bool) (secret : List Char) (t : Int)
       (tok : SessionToken),
      tok.alg.isHMAC = false →
      validateToken sign uuidOk secret t tok = .error .unexpectedAlgorithm) := by
  refine ⟨?_, ?_, ?_⟩
  · intro sign uuidOk secret userID jtiVal t
    refine ⟨rfl, ?_, ?_⟩
    · intro hu
      unfold validateToken issueToken
      simp only []
      rw [if_neg (by simp [JWTAlg.isHMAC])]
      rw [if_neg (by simp)]
      rw [if_neg (by omega)]
      rw [if_neg (by omega)]
      rw [if_neg (by omega)]
      rw [if_neg (by simp [hu])]
    · unfold validateToken issueToken
      simp only []
      rw [if_neg (by simp [JWTAlg.isHMAC])]
      rw [if_neg (by simp)]
      rw [if_pos (by omega)]
  · intro sign uuidOk secret t tok s' halg hs
    unfold validateToken
    rw [show ({ tok with sig := s' } : SessionToken).alg = tok.alg from rfl]
    rw [halg]
    simp only [Bool.true_eq_false, if_false]
    rw [if_pos (by simpa using hs)]
  · intro sign uuidOk secret t tok halg
    unfold validateToken
    rw [halg]
    simp

/-- C4 witness: the issue/validate cycle and the two forgery rejections at
concrete values. -/
theorem c4_witness :
    ((issueToken (fun _ _ _ => 0) [] ['a'] 0 []).claims.exp = (0 : Int) + 24 * 60 * 60 ∧
      ((fun _ => true) (['a'] : List Char) = true →
        validateToken (fun _ _ _ => 0) (fun _ => true) [] 0
          (issueToken (fun _ _ _ => 0) [] ['a'] 0 []) = .ok ['a']) ∧
      validateToken (fun _ _ _ => 0) (fun _ => true) [] ((0 : Int) + 24 * 60 * 60 + 1)
        (issueToken (fun _ _ _ => 0) [] ['a'] 0 []) = .error .expired) ∧
    validateToken (fun _ _ _ => 0) (fun _ => true) [] 0
      { alg := .HS512, claims := ⟨0, ['a'], 1, [], [], []⟩, sig := 1 } =
        .error .invalidSignature ∧
    validateToken (fun _ _ _ => 0) (fun _ => true) [] 0
      { alg := .RS256, claims := ⟨0, ['a'], 1, [], [], []⟩, sig := 0 } =
        .error .unexpectedAlgorithm :=
  ⟨c4_session.1 (fun _ _ _ => 0) (fun _ => true) [] ['a'] [] 0,
   c4_session.2.1 (fun _ _ _ => 0) (fun _ => true) [] 0
     { alg := .HS512, claims := ⟨0, ['a'], 1, [], [], []⟩, sig := 0 } 1 rfl (by decide),
   c4_session.2.2 (fun _ _ _ => 0) (fun _ => true) [] 0
     { alg := .RS256, claims := ⟨0, ['a'], 1, [], [], []⟩, sig := 0 } rfl⟩

/-- C8: a login request naming an email with no account and a login request
naming an existing, not currently locked account whose password fails
verification produce the same external response: status 401 with error body
`Invalid credentials`; the internal cause is not observable.  The
absent-account outcome is additionally independent of the comparison result
and of signing success. -/
theorem c8_enumeration (now : Int) (cmpA : Except DecodeError Bool) (sA : Bool)
    (u : UserRec) (sB : Bool) (hlock : lockActive now u = false) :
    (loginFlow now none cmpA sA).outcome = .invalidCredentials ∧
    (loginFlow now (some u) (.ok false) sB).outcome = .invalidCredentials ∧
    loginResponse (loginFlow now none cmpA sA).outcome =
      loginResponse (loginFlow now (some u) (.ok false) sB).outcome ∧
    loginResponse (loginFlow now none cmpA sA).outcome =
      (401, "Invalid credentials".toList) := by
  have hB : (loginFlow now (some u) (.ok false) sB).outcome = .invalidCredentials := by
    show (loginStep now (.ok false) sB u).outcome = .invalidCredentials
    unfold loginStep
    rw [hlock]
    simp
  refine ⟨rfl, hB, ?_, rfl⟩
  rw [hB]
  rfl

/-- C8 witness: both requests evaluated concretely. -/
theorem c8_witness :
    (loginFlow 0 none (.ok true) true).outcome = .invalidCredentials ∧
    (loginFlow 0 (some (⟨0, 0, 0, none, none, [], [], [], [], 0, true⟩ : UserRec))
      (.ok false) true).outcome = .invalidCredentials ∧
    loginResponse (loginFlow 0 none (.ok true) true).outcome =
      loginResponse (loginFlow 0
        (some (⟨0, 0, 0, none, none, [], [], [], [], 0, true⟩ : UserRec))
        (.ok false) true).outcome ∧
    loginResponse (loginFlow 0 none (.ok true) true).outcome =
      (401, "Invalid credentials".toList) :=
  c8_enumeration 0 (.ok true) true ⟨0, 0, 0, none, none, [], [], [], [], 0, true⟩ true rfl

/-- C6 counterexample: on a credential whose salt segment is not valid
base64, `DecodeHash` returns the propagated base64 decoding error, which is
a different error value than the `ErrInvalidHash` sentinel the claim names
— so the base64-failure clause of the claim is false. -/
theorem c6_counterexample :
    DecodeHash ("$argon2id$v=19$m=1,t=1,p=1$!!$AA".toList) = .error .base64Error ∧
    DecodeError.base64Error ≠ DecodeError.invalidHash := by
  refine ⟨rfl, by decide⟩

/-- C6 (amended): `DecodeHash` fails with `ErrInvalidHash` when the
`$`-separated field count is not six; fails with `ErrIncompatibleVersion`
when the scanned version differs from `argon2.Version`; and fails with the
propagated base64 decoding error — not `ErrInvalidHash` — when the salt or
key segment does not decode.  In every failure case no params, salt or key
are returned. -/
theorem c6_amended :
    (∀ s : List Char, (splitOnDollar s).length ≠ 6 →
      DecodeHash s = .error .invalidHash) ∧
    (∀ (s : List Char) (v : Nat), (splitOnDollar s).length = 6 →
      scanVField ((splitOnDollar s).getD 2 []) = some v → v ≠ argon2Version →
      DecodeHash s = .error .incompatibleVersion) ∧
    (∀ (s : List Char) (m t par : Nat), (splitOnDollar s).length = 6 →
      scanVField ((splitOnDollar s).getD 2 []) = some argon2Version →
      scanParamsField ((splitOnDollar s).getD 3 []) = some (m, t, par) →
      b64Decode ((splitOnDollar s).getD 4 []) = none →
      DecodeHash s = .error .base64Error) ∧
    (∀ (s : List Char) (m t par : Nat) (salt : List Nat),
      (splitOnDollar s).length = 6 →
      scanVField ((splitOnDollar s).getD 2 []) = some argon2Version →
      scanParamsField ((splitOnDollar s).getD 3 []) = some (m, t, par) →
      b64Decode ((splitOnDollar s).getD 4 []) = some salt →
      b64Decode ((splitOnDollar s).getD 5 []) = none →
      DecodeHash s = .error .base64Error) := by
  refine ⟨?_, ?_, ?_, ?_⟩
  · intro s h
    unfold DecodeHash
    rw [if_neg h]
  · intro s v hlen hv hne
    unfold DecodeHash
    rw [if_pos hlen, hv]
    simp only [hne, if_false]
  · intro s m t par hlen hv hp hb
    unfold DecodeHash
    rw [if_pos hlen, hv]
    simp only [List.getD, List.get?_eq_getElem?] at hp hb
    simp [hp, hb]
  · intro s m t par salt hlen hv hp hs hk
    unfold DecodeHash
    rw [if_pos hlen, hv]
    simp only [List.getD, List.get?_eq_getElem?] at hp hs hk
    simp [hp, hs, hk]

/-- C6 amended-theorem witness: the three failure families evaluated on
concrete credential strings. -/
theorem c6_amended_witness :
    DecodeHash ("abc".toList) = .error .invalidHash ∧
    DecodeHash ("$argon2id$v=18$m=1,t=1,p=1$AA$AA".toList) = .error .incompatibleVersion ∧
    DecodeHash ("$argon2id$v=19$m=1,t=1,p=1$!A$AA".toList) = .error .base64Error ∧
    DecodeHash ("$argon2id$v=19$m=1,t=1,p=1$AA$!A".toList) = .error .base64Error :=
  ⟨c6_amended.1 ("abc".toList) (by decide),
   c6_amended.2.1 ("$argon2id$v=18$m=1,t=1,p=1$AA$AA".toList) 18 (by decide) (by decide)
     (by decide),
   c6_amended.2.2.1 ("$argon2id$v=19$m=1,t=1,p=1$!A$AA".toList) 1 1 1 (by decide) (by decide)
     (by decide) (by decide),
   c6_amended.2.2.2 ("$argon2id$v=19$m=1,t=1,p=1$AA$!A".toList) 1 1 1 [0] (by decide)
     (by decide) (by decide) (by decide) (by decide)⟩

/-- C7 counterexample: in `ResetPassword`, when the account mutation (the
user update) fails, the request fails with 500 and the token record is left
unused — the token does not "remain marked used", and the redemption is
re-attemptable, contrary to the claim. -/
theorem c7_counterexample :
    (resetPasswordFlow 0 (⟨0, 0, 0, none, none, [], [], [], [], 0, true⟩ : UserRec)
      ⟨false, none⟩ ['h'] false true).status = 500 ∧
    (resetPasswordFlow 0 (⟨0, 0, 0, none, none, [], [], [], [], 0, true⟩ : UserRec)
      ⟨false, none⟩ ['h'] false true).token.used = false := by
  refine ⟨by decide, by decide⟩

/-- C7 (amended): the account mutation happens before the token is marked
used, in both redemption flows.  When the user update succeeds the token is
marked used with `used_at` stamped; when the user update fails the token
record is untouched (still redeemable) and the user unchanged; when marking
the token used fails after a successful user update, the user update is not
rolled back and the request still succeeds. -/
theorem c7_amended :
    (∀ (now : Int) (u : UserRec) (tok : TokenRec) (newHash : List Char) (tOk : Bool),
      (resetPasswordFlow now u tok newHash true tOk).user = resetPasswordUpdate newHash now u ∧
      (tOk = true → (resetPasswordFlow now u tok newHash true tOk).token =
        { used := true, usedAt := some now }) ∧
      (tOk = false → (resetPasswordFlow now u tok newHash true tOk).token = tok ∧
        (resetPasswordFlow now u tok newHash true tOk).status = 200) ∧
      (resetPasswordFlow now u tok newHash false tOk).status = 500 ∧
      (resetPasswordFlow now u tok newHash false tOk).token = tok ∧
      (resetPasswordFlow now u tok newHash false tOk).user = u) ∧
    (∀ (now : Int) (u : UserRec) (tok : TokenRec) (tOk : Bool),
      (verifyEmailFlow now u tok true tOk).user = verifyEmailUpdate now u ∧
      (tOk = true → (verifyEmailFlow now u tok true tOk).token =
        { used := true, usedAt := some now }) ∧
      (verifyEmailFlow now u tok false tOk).status = 500 ∧
      (verifyEmailFlow now u tok false tOk).token = tok) := by
  constructor
  · intro now u tok newHash tOk
    refine ⟨rfl, ?_, ?_, rfl, rfl, rfl⟩
    · intro h
      subst h
      rfl
    · intro h
      subst h
      exact ⟨rfl, rfl⟩
  · intro now u tok tOk
    refine ⟨rfl, ?_, rfl, rfl⟩
    intro h
    subst h
    rfl

/-- C7 amended-theorem witness: both flows evaluated concretely. -/
theorem c7_amended_witness :
    ((resetPasswordFlow 0 (⟨0, 0, 0, none, none, [], [], [], [], 0, true⟩ : UserRec)
        ⟨false, none⟩ ['h'] true true).user =
      resetPasswordUpdate ['h'] 0 (⟨0, 0, 0, none, none, [], [], [], [], 0, true⟩ : UserRec) ∧
      (true = true → (resetPasswordFlow 0 (⟨0, 0, 0, none, none, [], [], [], [], 0, true⟩ : UserRec)
        ⟨false, none⟩ ['h'] true true).token = { used := true, usedAt := some 0 }) ∧
      (true = false → (resetPasswordFlow 0 (⟨0, 0, 0, none, none, [], [], [], [], 0, true⟩ : UserRec)
        ⟨false, none⟩ ['h'] true true).token = ⟨false, none⟩ ∧
        (resetPasswordFlow 0 (⟨0, 0, 0, none, none, [], [], [], [], 0, true⟩ : UserRec)
          ⟨false, none⟩ ['h'] true true).status = 200) ∧
      (resetPasswordFlow 0 (⟨0, 0, 0, none, none, [], [], [], [], 0, true⟩ : UserRec)
        ⟨false, none⟩ ['h'] false true).status = 500 ∧
      (resetPasswordFlow 0 (⟨0, 0, 0, none, none, [], [], [], [], 0, true⟩ : UserRec)
        ⟨false, none⟩ ['h'] false true).token = ⟨false, none⟩ ∧
      (resetPasswordFlow 0 (⟨0, 0, 0, none, none, [], [], [], [], 0, true⟩ : UserRec)
        ⟨false, none⟩ ['h'] false true).user =
          (⟨0, 0, 0, none, none, [], [], [], [], 0, true⟩ : UserRec)) ∧
    ((verifyEmailFlow 0 (⟨0, 0, 0, none, none, [], [], [], [], 0, false⟩ : UserRec)
        ⟨false, none⟩ true false).user =
      verifyEmailUpdate 0 (⟨0, 0, 0, none, none, [], [], [], [], 0, false⟩ : UserRec) ∧
      (false = true → (verifyEmailFlow 0 (⟨0, 0, 0, none, none, [], [], [], [], 0, false⟩ : UserRec)
        ⟨false, none⟩ true false).token = { used := true, usedAt := some 0 }) ∧
      (verifyEmailFlow 0 (⟨0, 0, 0, none, none, [], [], [], [], 0, false⟩ : UserRec)
        ⟨false, none⟩ false false).status = 500 ∧
      (verifyEmailFlow 0 (⟨0, 0, 0, none, none, [], [], [], [], 0, false⟩ : UserRec)
        ⟨false, none⟩ false false).token = ⟨false, none⟩) :=
  ⟨c7_amended.1 0 ⟨0, 0, 0, none, none, [], [], [], [], 0, true⟩ ⟨false, none⟩ ['h'] true,
   c7_amended.2 0 ⟨0, 0, 0, none, none, [], [], [], [], 0, false⟩ ⟨false, none⟩ false⟩

/-- C9: for every possible four-byte draw, the verify-email secret is an
integer in 10000000-99999999 rendered as exactly eight decimal digits; for
every thirty-two-byte draw, the reset-password secret is the sixty-four
character lowercase-hexadecimal encoding of the bytes. -/
theorem c9_generators (b0 b1 b2 b3 : Nat)
    (h0 : b0 < 256) (h1 : b1 < 256) (h2 : b2 < 256) (h3 : b3 < 256)
    (bytes : List Nat) (hlen : bytes.length = 32) (hb : ∀ b ∈ bytes, b < 256) :
    10000000 ≤ generateVerificationTokenNum b0 b1 b2 b3 ∧
    generateVerificationTokenNum b0 b1 b2 b3 ≤ 99999999 ∧
    (generateVerificationToken b0 b1 b2 b3).length = 8 ∧
    (∀ c ∈ generateVerificationToken b0 b1 b2 b3, c.isDigit = true) ∧
    (generatePasswordResetToken bytes).length = 64 ∧
    (∀ c ∈ generatePasswordResetToken bytes, isLowerHexDigit c = true) := by
  have hmod : (b0 <<< 24 ||| b1 <<< 16 ||| b2 <<< 8 ||| b3) % 90000000 < 90000000 :=
    Nat.mod_lt _ (by norm_num)
  have hlow : 10000000 ≤ generateVerificationTokenNum b0 b1 b2 b3 := by
    unfold generateVerificationTokenNum
    omega
  have hhigh : generateVerificationTokenNum b0 b1 b2 b3 ≤ 99999999 := by
    unfold generateVerificationTokenNum
    omega
  have hdlen : (toDecimal (generateVerificationTokenNum b0 b1 b2 b3)).length = 8 :=
    toDecimal_length_eight _ hlow hhigh
  refine ⟨hlow, hhigh, ?_, ?_, ?_, ?_⟩
  · unfold generateVerificationToken padZeros8
    rw [hdlen]
    simp [hdlen]
  · intro c hc
    unfold generateVerificationToken padZeros8 at hc
    rw [hdlen] at hc
    simp only [Nat.sub_self, List.replicate_zero, List.nil_append] at hc
    exact toDecimal_isDigit _ c hc
  · unfold generatePasswordResetToken
    rw [hexEncode_length, hlen]
  · intro c hc
    unfold generatePasswordResetToken at hc
    exact hexEncode_mem bytes hb c hc

/-- C9 witness: both generators evaluated on concrete byte draws. -/
theorem c9_witness :
    10000000 ≤ generateVerificationTokenNum 0 0 0 0 ∧
    generateVerificationTokenNum 0 0 0 0 ≤ 99999999 ∧
    (generateVerificationToken 0 0 0 0).length = 8 ∧
    (∀ c ∈ generateVerificationToken 0 0 0 0, c.isDigit = true) ∧
    (generatePasswordResetToken (List.replicate 32 0)).length = 64 ∧
    (∀ c ∈ generatePasswordResetToken (List.replicate 32 0), isLowerHexDigit c = true) :=
  c9_generators 0 0 0 0 (by norm_num) (by norm_num) (by norm_num) (by norm_num)
    (List.replicate 32 0) (by simp)
    (by intro b hb; rw [List.eq_of_mem_replicate hb]; omega)

/-- C10: on every successful password reset, in addition to storing the new
password hash, the stored user record has `login_attempts` set to 0 and
`locked_until` cleared — a successful reset always unlocks a locked account
and clears the brute-force counter. -/
theorem c10_reset_unlocks (now : Int) (u : UserRec) (tok : TokenRec)
    (newHash : List Char) (tOk : Bool) :
    ((resetPasswordFlow now u tok newHash true tOk).user).loginAttempts = 0 ∧
    ((resetPasswordFlow now u tok newHash true tOk).user).lockedUntil = none ∧
    ((resetPasswordFlow now u tok newHash true tOk).user).password = newHash := by
  exact ⟨rfl, rfl, rfl⟩
